import Mathlib

/-!
Shallow embedding of `gilts.py`: a gilt-market yield calculator that
(1) disambiguates whether maturity-date strings are day-first or
month-first, (2) normalizes raw CSV rows into typed records,
(3) filters eligible securities, (4) computes a tax-adjusted annualized
equivalent return per security type, and (5) ranks the results by yield.

Modelling conventions:
* A date string "a/b/y" is represented by the triple of its numeric
  fields (`DateStr`); `strptime` validity under a format is `parseDate`.
* Python `date` objects are `SDate` triples; Python date comparison and
  subtraction coincide with comparison/subtraction of the proleptic
  Gregorian ordinal, modelled by `toDays` (days from 1970-01-01).
* Python floats are idealized as exact arithmetic: `ℚ` for the values
  that stay rational, `ℝ` (with `Real.rpow`) for the `pow` call.
* A numeric CSV field that may carry the literal "N/A" sentinel is an
  `Option ℚ` (`none` encodes "N/A").
* Uncaught Python exceptions (`KeyError` on an unknown category,
  `ValueError` from `strptime`) and the explicit `sys.exit(1)` for an
  undetectable date format abort the batch; the pipeline returns
  `Except Err`.
-/

/-- The two candidate date formats, `%d/%m/%Y` and `%m/%d/%Y`. -/
inductive Fmt where
  | dayFirst
  | monthFirst
deriving DecidableEq

/-- A raw date string "f1/f2/year": the two leading numeric fields and the
four-digit year field. -/
structure DateStr where
  f1 : Nat
  f2 : Nat
  year : Nat
deriving DecidableEq

/-- A Python `datetime.date` value (year, month, day). -/
structure SDate where
  year : Nat
  month : Nat
  day : Nat
deriving DecidableEq

/-- Gregorian leap-year test, as used by `datetime`. -/
def isLeap (y : Nat) : Bool :=
  (y % 4 == 0 && y % 100 != 0) || y % 400 == 0

/-- Number of days in a month of a given year. -/
def daysInMonth (y m : Nat) : Nat :=
  if m = 2 then (if isLeap y then 29 else 28)
  else if m = 4 ∨ m = 6 ∨ m = 9 ∨ m = 11 then 30
  else 31

/-- Validity of a (year, month, day) combination for `datetime.strptime`
with a `%Y` year (four digits, so 1–9999 after the MINYEAR check). -/
def validYMD (y m d : Nat) : Bool :=
  1 ≤ y && y ≤ 9999 && 1 ≤ m && m ≤ 12 && 1 ≤ d && d ≤ daysInMonth y m

/-- Model of `datetime.strptime(s, fmt).date()` on a date string:
`none` when `strptime` raises `ValueError`. -/
def parseDate : Fmt → DateStr → Option SDate
  | .dayFirst, s =>
      if validYMD s.year s.f2 s.f1 then some ⟨s.year, s.f2, s.f1⟩ else none
  | .monthFirst, s =>
      if validYMD s.year s.f1 s.f2 then some ⟨s.year, s.f1, s.f2⟩ else none

/-- Days from 1970-01-01 to the given date (proleptic Gregorian civil-date
arithmetic). Python date subtraction `(a - b).days` equals
`toDays a - toDays b`, and date comparison agrees with `toDays` order. -/
def toDays (dt : SDate) : Int :=
  let y : Int := if dt.month ≤ 2 then (dt.year : Int) - 1 else (dt.year : Int)
  let m : Int := dt.month
  let era : Int := (if 0 ≤ y then y else y - 399) / 400
  let yoe : Int := y - era * 400
  let doy : Int := (153 * (m + (if 2 < m then -3 else 9)) + 2) / 5 + (dt.day : Int) - 1
  let doe : Int := yoe * 365 + yoe / 4 - yoe / 100 + doy
  era * 146097 + doe - 719468

/-- The date-format disambiguation loop (`gilts.py` lines 60–74): for each
maturity-date string, if the day-first parse fails conclude month-first;
otherwise if the month-first parse fails conclude day-first; otherwise
move to the next string. `none` models falling off the end of the file
with `date_format` still unset. -/
def date_format : List DateStr → Option Fmt
  | [] => none
  | s :: rest =>
      if (parseDate .dayFirst s).isNone then some .monthFirst
      else if (parseDate .monthFirst s).isNone then some .dayFirst
      else date_format rest

/-- The security categories (`SecurityType` enum). -/
inductive SecurityType where
  | BILL
  | CONVENTIONAL
  | INDEXLINKED
  | STRIP
deriving DecidableEq

/-- The fixed category-label lookup (`SecurityToType` dict); `none` models
the `KeyError` raised on an unknown label. -/
def SecurityToType (label : String) : Option SecurityType :=
  if label = "Bills" then some .BILL
  else if label = "Conventional" then some .CONVENTIONAL
  else if label = "Index-linked" then some .INDEXLINKED
  else if label = "Strips" then some .STRIP
  else none

/-- One data row of the CSV, with numeric fields pre-tokenized: an
`Option ℚ` field is `none` exactly when the raw text is the "N/A"
sentinel. -/
structure RawRow where
  name : String
  exportDate : DateStr
  isin : String
  category : String
  coupon : Option ℚ
  maturityDate : DateStr
  clean : Option ℚ
  dirty : Option ℚ

/-- The normalized intermediate record built from one row
(`gilts.py` lines 85–92). -/
structure NormRec where
  name : String
  exportDate : SDate
  isin : String
  type : SecurityType
  coupon : ℚ
  maturity : SDate
  days : Int
  clean : ℚ
  dirty : ℚ
deriving DecidableEq

/-- The conditions that abort the whole batch. -/
inductive Err where
  | dataFormat
  | keyError (label : String)
  | valueError
deriving DecidableEq

/-- Field extraction for one row, in source order (`gilts.py` lines
85–92): export-date parse, category lookup, coupon default, maturity
parse, day difference, clean/dirty defaults. An unknown category label is
a `KeyError`; a failing date parse is a `ValueError`; both abort. -/
def normalizeRow (fmt : Fmt) (row : RawRow) : Except Err NormRec :=
  match parseDate fmt row.exportDate with
  | none => .error .valueError
  | some ed =>
    match SecurityToType row.category with
    | none => .error (.keyError row.category)
    | some ty =>
      let coupon := row.coupon.getD 0
      match parseDate fmt row.maturityDate with
      | none => .error .valueError
      | some md =>
        let clean := row.clean.getD 100
        .ok { name := row.name, exportDate := ed, isin := row.isin,
              type := ty, coupon := coupon, maturity := md,
              days := toDays md - toDays ed,
              clean := clean, dirty := row.dirty.getD clean }

/-- Model of `gilt_name.lower().startswith("uk")`: the first two
characters of the lower-cased name are 'u' then 'k' (the characters that
matter are ASCII, where Python `str.lower` and `Char.toLower` agree). -/
def nameIsUk (name : String) : Bool :=
  match name.data.map Char.toLower with
  | 'u' :: 'k' :: _ => true
  | _ => false

/-- The eligibility filter (`gilts.py` lines 94–115): keep a record iff
its maturity is strictly after today, its name (lower-cased) starts with
"uk", and its type is neither STRIP nor INDEXLINKED. Rejected records are
skipped silently (`continue`). -/
def keep (today : SDate) (r : NormRec) : Bool :=
  decide (toDays today < toDays r.maturity)
    && nameIsUk r.name
    && !decide (r.type = SecurityType.STRIP)
    && !decide (r.type = SecurityType.INDEXLINKED)

/-- The per-type `(total_gross_return, taxable_return)` pair
(`gilts.py` lines 102–126). The wildcard keeps the `0` initialization
values; in the pipeline STRIP and INDEXLINKED never reach this point. -/
def total_gross_taxable (ty : SecurityType) (coupon dirty : ℚ) (days : Int) : ℚ × ℚ :=
  match ty with
  | .BILL => (100 - dirty, 100 - dirty)
  | .CONVENTIONAL =>
      let taxable := coupon * ((days : ℚ) / 365)
      ((100 - dirty) + taxable, taxable)
  | _ => (0, 0)

/-- Net return after tax on the taxable part (`gilts.py` lines 128–129). -/
def total_net_return (gross taxable tax : ℚ) : ℚ :=
  gross - taxable * (tax / 100)

/-- The annualized equivalent rate (`gilts.py` lines 130–131):
`pow(percentage_return + 1, 365/days_to_maturity) - 1` with
`percentage_return = total_net_return / dirty`. -/
noncomputable def annual_equiv (net dirty : ℚ) (days : Int) : ℝ :=
  ((net / dirty + 1 : ℚ) : ℝ) ^ ((365 : ℝ) / (days : ℝ)) - 1

/-- The output entity (`Security` dataclass). `Type` is a Lean keyword,
so the field is named `SecType`. -/
structure Security where
  ISIN : String
  SecType : SecurityType
  Coupon : ℚ
  Maturity : SDate
  Dirty : ℚ
  GrossAER : ℝ

/-- Construction of the `Security` appended for an eligible record
(`gilts.py` lines 128–138). -/
noncomputable def mkSecurity (tax : ℚ) (r : NormRec) : Security :=
  let gt := total_gross_taxable r.type r.coupon r.dirty r.days
  { ISIN := r.isin, SecType := r.type, Coupon := r.coupon,
    Maturity := r.maturity, Dirty := r.dirty,
    GrossAER := annual_equiv (total_net_return gt.1 gt.2 tax) r.dirty r.days }

/-- The second pass over the rows (`gilts.py` lines 83–138): normalize
each row (aborting the whole batch on a parse error), drop rows the
filter rejects, and collect the constructed securities in input order. -/
noncomputable def processRows (fmt : Fmt) (tax : ℚ) (today : SDate) :
    List RawRow → Except Err (List Security)
  | [] => .ok []
  | row :: rest =>
    match normalizeRow fmt row with
    | .error e => .error e
    | .ok r =>
      match processRows fmt tax today rest with
      | .error e => .error e
      | .ok out => .ok (if keep today r then mkSecurity tax r :: out else out)

/-- Comparator of `assets.sort(key=lambda x: x.GrossAER, reverse=True)`:
a stable descending sort keeps `a` before `b` iff `b.GrossAER ≤ a.GrossAER`. -/
noncomputable def giltLe (a b : Security) : Bool :=
  decide (b.GrossAER ≤ a.GrossAER)

/-- The ranking step (`gilts.py` line 140): Python `list.sort` is a
stable sort; with `reverse=True` it is the stable sort under `giltLe`. -/
noncomputable def rankSort (l : List Security) : List Security :=
  l.mergeSort giltLe

/-- Divisor of the grossing-up step in the report line
(`gilts.py` line 145): `1 - tax_rate/100`. -/
def grossUpDivisor (tax : ℚ) : ℚ := 1 - tax / 100

/-- The derived comparison figure printed per record (`gilts.py` line
145): `aer / (1 - tax_rate/100)` when `aer ≥ 0`, else `aer` unchanged. -/
noncomputable def comparisonAER (tax : ℚ) (aer : ℝ) : ℝ :=
  if 0 ≤ aer then aer / ((grossUpDivisor tax : ℚ) : ℝ) else aer

/-- The tax-rate validation (`gilts.py` lines 38–44): the run proceeds
iff not `((tax ≤ 1 and tax ≠ 0) or tax > 100)`. -/
def tax_rate_ok (t : ℚ) : Bool :=
  !((decide (t ≤ 1) && !decide (t = 0)) || decide (100 < t))

/-- The whole core pipeline: disambiguate the date format from the
maturity-date column, replay the rows through
normalization/filter/calculation, and sort the result by descending AER. -/
noncomputable def run (tax : ℚ) (today : SDate) (rows : List RawRow) :
    Except Err (List Security) :=
  match date_format (rows.map RawRow.maturityDate) with
  | none => .error .dataFormat
  | some fmt =>
    match processRows fmt tax today rows with
    | .error e => .error e
    | .ok assets => .ok (rankSort assets)

/-! ### Helper lemmas -/

theorem validYMD_iff {y m d : Nat} :
    validYMD y m d = true ↔
      1 ≤ y ∧ y ≤ 9999 ∧ 1 ≤ m ∧ m ≤ 12 ∧ 1 ≤ d ∧ d ≤ daysInMonth y m := by
  simp [validYMD, Bool.and_eq_true, decide_eq_true_eq, and_assoc]

theorem daysInMonth_ge_twelve (y m : Nat) (h1 : 1 ≤ m) (h2 : m ≤ 12) :
    12 ≤ daysInMonth y m := by
  unfold daysInMonth
  split_ifs <;> norm_num

theorem parseDate_dayFirst_isSome {x : DateStr} :
    (parseDate Fmt.dayFirst x).isSome = validYMD x.year x.f2 x.f1 := by
  simp only [parseDate]
  split <;> simp_all

theorem parseDate_monthFirst_isSome {x : DateStr} :
    (parseDate Fmt.monthFirst x).isSome = validYMD x.year x.f1 x.f2 := by
  simp only [parseDate]
  split <;> simp_all

theorem ambiguous_parses_both {tf : Fmt} {x : DateStr}
    (hv : (parseDate tf x).isSome) (h1 : x.f1 ≤ 12) (h2 : x.f2 ≤ 12) :
    (parseDate Fmt.dayFirst x).isSome ∧ (parseDate Fmt.monthFirst x).isSome := by
  have hd : ∀ y m d : Nat, 1 ≤ y → y ≤ 9999 → 1 ≤ m → m ≤ 12 → 1 ≤ d → d ≤ 12 →
      validYMD y m d = true := by
    intro y m d hy hy' hm hm' hdd hdd'
    exact validYMD_iff.mpr ⟨hy, hy', hm, hm', hdd,
      le_trans hdd' (daysInMonth_ge_twelve y m hm hm')⟩
  cases tf with
  | dayFirst =>
    rw [parseDate_dayFirst_isSome] at hv
    obtain ⟨hy, hy', hm, hm', hdd, _⟩ := validYMD_iff.mp hv
    refine ⟨?_, ?_⟩
    · rw [parseDate_dayFirst_isSome]; exact hv
    · rw [parseDate_monthFirst_isSome]; exact hd _ _ _ hy hy' hdd h1 hm h2
  | monthFirst =>
    rw [parseDate_monthFirst_isSome] at hv
    obtain ⟨hy, hy', hm, hm', hdd, _⟩ := validYMD_iff.mp hv
    refine ⟨?_, ?_⟩
    · rw [parseDate_dayFirst_isSome]; exact hd _ _ _ hy hy' hdd h2 hm h1
    · rw [parseDate_monthFirst_isSome]; exact hv

/-! ### C1 -/


/-- C1: if every maturity-date string before `s` is valid under the true
format and ambiguous (both leading components at most 12), and `s` is
valid under the true format with a component above 12, then the
disambiguator resolves to the true format at `s`: the ambiguous prefix
leaves the state unchanged, and the strings after `s` — universally
quantified, hence never consulted — cannot change the result. -/
theorem date_format_correct (tf : Fmt) (pre post : List DateStr) (s : DateStr)
    (hpre : ∀ x ∈ pre, (parseDate tf x).isSome ∧ x.f1 ≤ 12 ∧ x.f2 ≤ 12)
    (hs : (parseDate tf s).isSome)
    (hu : 12 < s.f1 ∨ 12 < s.f2) :
    date_format (pre ++ s :: post) = some tf := by
  induction pre with
  | nil =>
    cases tf with
    | dayFirst =>
      have hvd : validYMD s.year s.f2 s.f1 = true := by
        rw [← parseDate_dayFirst_isSome]; exact hs
      obtain ⟨hy1, hy2, hm1, hm2, hd1, hd2⟩ := validYMD_iff.mp hvd
      have hvm : validYMD s.year s.f1 s.f2 = false := by
        cases hv : validYMD s.year s.f1 s.f2
        · rfl
        · obtain ⟨_, _, _, hmm, _, _⟩ := validYMD_iff.mp hv
          rcases hu with h | h <;> omega
      simp [date_format, parseDate, hvd, hvm]
    | monthFirst =>
      have hvm : validYMD s.year s.f1 s.f2 = true := by
        rw [← parseDate_monthFirst_isSome]; exact hs
      obtain ⟨hy1, hy2, hm1, hm2, hd1, hd2⟩ := validYMD_iff.mp hvm
      have hvd : validYMD s.year s.f2 s.f1 = false := by
        cases hv : validYMD s.year s.f2 s.f1
        · rfl
        · obtain ⟨_, _, _, hmm, _, _⟩ := validYMD_iff.mp hv
          rcases hu with h | h <;> omega
      simp [date_format, parseDate, hvd]
  | cons x rest ih =>
    obtain ⟨hvx, hx1, hx2⟩ := hpre x (List.mem_cons_self x rest)
    obtain ⟨hday, hmonth⟩ := ambiguous_parses_both hvx hx1 hx2
    have ih' := ih (fun z hz => hpre z (List.mem_cons_of_mem x hz))
    rw [Option.isSome_iff_exists] at hday hmonth
    obtain ⟨d1, hday⟩ := hday
    obtain ⟨d2, hmonth⟩ := hmonth
    simpa [date_format, hday, hmonth] using ih'

/-- Witness for C1 at a concrete day-first input: one ambiguous string,
then the unambiguous 25/12/2030, then an arbitrary trailing string. -/
theorem date_format_correct_witness :
    date_format ([⟨3, 4, 2030⟩] ++ ⟨25, 12, 2030⟩ :: [⟨1, 1, 1⟩]) = some Fmt.dayFirst :=
  date_format_correct Fmt.dayFirst [⟨3, 4, 2030⟩] [⟨1, 1, 1⟩] ⟨25, 12, 2030⟩
    (by decide) (by decide) (by decide)

/-! ### C6 -/

theorem date_format_none (l : List DateStr)
    (h : ∀ x ∈ l, (parseDate Fmt.dayFirst x).isSome ∧ (parseDate Fmt.monthFirst x).isSome) :
    date_format l = none := by
  induction l with
  | nil => rfl
  | cons x rest ih =>
    obtain ⟨hday, hmonth⟩ := h x (List.mem_cons_self x rest)
    rw [Option.isSome_iff_exists] at hday hmonth
    obtain ⟨d1, hday⟩ := hday
    obtain ⟨d2, hmonth⟩ := hmonth
    simpa [date_format, hday, hmonth] using
      ih (fun z hz => h z (List.mem_cons_of_mem x hz))

/-- C6: when every maturity-date string in the input parses under both
formats (both leading components at most 12, so it is ambiguous), the
disambiguation loop exhausts the rows without resolving and the whole
run aborts with the date-format error — no `Security` list is produced,
for any tax rate and any current date. -/
theorem run_all_ambiguous_aborts (tax : ℚ) (today : SDate) (rows : List RawRow)
    (h : ∀ row ∈ rows, (parseDate Fmt.dayFirst row.maturityDate).isSome ∧
      (parseDate Fmt.monthFirst row.maturityDate).isSome) :
    run tax today rows = .error .dataFormat := by
  have hnone : date_format (rows.map RawRow.maturityDate) = none := by
    refine date_format_none _ ?_
    intro x hx
    rw [List.mem_map] at hx
    obtain ⟨row, hrow, rfl⟩ := hx
    exact h row hrow
  rw [run, hnone]

/-- Witness for C6: a two-row file whose maturity dates 3/4/2030 and
12/1/2031 are both ambiguous. -/
theorem run_all_ambiguous_aborts_witness :
    run 20 ⟨2026, 10, 12⟩
      [⟨"UK TREASURY BILL", ⟨3, 1, 2030⟩, "GB00A", "Bills", none, ⟨3, 4, 2030⟩, none, some 98⟩,
       ⟨"UK GILT", ⟨3, 1, 2030⟩, "GB00B", "Conventional", some 4, ⟨12, 1, 2031⟩, some 99, some 99⟩]
      = .error .dataFormat :=
  run_all_ambiguous_aborts 20 ⟨2026, 10, 12⟩ _ (by decide)

/-! ### C2 -/

/-- Concrete eligible Bill record used as witness input: dirty price 98,
91 days to maturity. -/
def wBillRec : NormRec :=
  ⟨"UK TREASURY BILL", ⟨2030, 1, 15⟩, "GB00A", .BILL, 0, ⟨2030, 4, 16⟩, 91, 100, 98⟩

/-- C2: for a Bill with dirty price `d`, positive days-to-maturity `n`
and tax rate in [0,100], the taxable and total gross returns both equal
`100 - d`, and the stored `GrossAER` equals
`(1 + totalNetReturn/d) ^ (365/n) - 1` where
`totalNetReturn = gross - taxable * (tax/100)`; in particular at
`d = 98`, `n = 91`, `tax = 0` the net return is 2 and the AER is
`(1 + 2/98) ^ (365/91) - 1`. -/
theorem bill_return_formula (r : NormRec) (tax : ℚ)
    (hty : r.type = SecurityType.BILL) (hn : 0 < r.days)
    (ht0 : 0 ≤ tax) (ht1 : tax ≤ 100) :
    (total_gross_taxable r.type r.coupon r.dirty r.days).2 = 100 - r.dirty ∧
    (total_gross_taxable r.type r.coupon r.dirty r.days).1 = 100 - r.dirty ∧
    (mkSecurity tax r).GrossAER =
      (1 + ((total_net_return (100 - r.dirty) (100 - r.dirty) tax : ℚ) : ℝ) / (r.dirty : ℝ))
        ^ ((365 : ℝ) / (r.days : ℝ)) - 1 ∧
    total_net_return (100 - 98) (100 - 98) 0 = 2 ∧
    annual_equiv 2 98 91 = (1 + (2 : ℝ) / 98) ^ ((365 : ℝ) / 91) - 1 := by
  refine ⟨by simp [total_gross_taxable, hty], by simp [total_gross_taxable, hty], ?_,
    by norm_num [total_net_return], ?_⟩
  · rw [mkSecurity, annual_equiv, hty]
    have hbase : ((total_net_return (total_gross_taxable SecurityType.BILL r.coupon r.dirty r.days).1
        (total_gross_taxable SecurityType.BILL r.coupon r.dirty r.days).2 tax / r.dirty + 1 : ℚ) : ℝ)
        = 1 + ((total_net_return (100 - r.dirty) (100 - r.dirty) tax : ℚ) : ℝ) / (r.dirty : ℝ) := by
      simp only [total_gross_taxable]
      push_cast
      ring
    rw [hbase]
  · rw [annual_equiv]
    have hbase : ((2 / 98 + 1 : ℚ) : ℝ) = 1 + (2 : ℝ) / 98 := by push_cast; ring
    have hexp : ((365 : ℝ) / ((91 : Int) : ℝ)) = (365 : ℝ) / 91 := by norm_num
    rw [hbase, hexp]

/-- Witness for C2 at the spec's concrete Bill (dirty 98, 91 days,
tax 0). -/
theorem bill_return_formula_witness :
    (total_gross_taxable wBillRec.type wBillRec.coupon wBillRec.dirty wBillRec.days).2
      = 100 - wBillRec.dirty ∧
    (total_gross_taxable wBillRec.type wBillRec.coupon wBillRec.dirty wBillRec.days).1
      = 100 - wBillRec.dirty ∧
    (mkSecurity 0 wBillRec).GrossAER =
      (1 + ((total_net_return (100 - wBillRec.dirty) (100 - wBillRec.dirty) 0 : ℚ) : ℝ)
        / (wBillRec.dirty : ℝ)) ^ ((365 : ℝ) / (wBillRec.days : ℝ)) - 1 ∧
    total_net_return (100 - 98) (100 - 98) 0 = 2 ∧
    annual_equiv 2 98 91 = (1 + (2 : ℝ) / 98) ^ ((365 : ℝ) / 91) - 1 :=
  bill_return_formula wBillRec 0 rfl (by decide) (by norm_num) (by norm_num)

/-! ### C3 -/

/-- Concrete eligible Conventional record used as witness input: coupon
4, dirty price 102, 365 days to maturity. -/
def wConvRec : NormRec :=
  ⟨"UK GILT 4% 2031", ⟨2030, 1, 15⟩, "GB00C", .CONVENTIONAL, 4, ⟨2031, 1, 15⟩, 365, 102, 102⟩

/-- C3: for a Conventional with coupon `c`, dirty price `d`, positive
days-to-maturity `n` and tax rate in [0,100], the taxable return is
`c * (n/365)`, the total gross return is `(100 - d) +` taxable, and the
stored `GrossAER` equals `(1 + totalNetReturn/d) ^ (365/n) - 1`; in
particular at `c = 4`, `d = 102`, `n = 365`, `tax = 20` the returns are
`(2, 4)`, the net return is `1.2 = 6/5` and the AER is `1.2/102`. -/
theorem conventional_return_formula (r : NormRec) (tax : ℚ)
    (hty : r.type = SecurityType.CONVENTIONAL) (hn : 0 < r.days)
    (ht0 : 0 ≤ tax) (ht1 : tax ≤ 100) :
    (total_gross_taxable r.type r.coupon r.dirty r.days).2 = r.coupon * ((r.days : ℚ) / 365) ∧
    (total_gross_taxable r.type r.coupon r.dirty r.days).1 =
      (100 - r.dirty) + r.coupon * ((r.days : ℚ) / 365) ∧
    (mkSecurity tax r).GrossAER =
      (1 + ((total_net_return ((100 - r.dirty) + r.coupon * ((r.days : ℚ) / 365))
          (r.coupon * ((r.days : ℚ) / 365)) tax : ℚ) : ℝ) / (r.dirty : ℝ))
        ^ ((365 : ℝ) / (r.days : ℝ)) - 1 ∧
    total_gross_taxable SecurityType.CONVENTIONAL 4 102 365 = (2, 4) ∧
    total_net_return 2 4 20 = 6 / 5 ∧
    annual_equiv (6 / 5) 102 365 = ((6 / 5 : ℚ) : ℝ) / 102 := by
  refine ⟨by simp [total_gross_taxable, hty], by simp [total_gross_taxable, hty], ?_,
    by norm_num [total_gross_taxable], by norm_num [total_net_return], ?_⟩
  · rw [mkSecurity, annual_equiv, hty]
    have hbase : ((total_net_return (total_gross_taxable SecurityType.CONVENTIONAL r.coupon r.dirty r.days).1
        (total_gross_taxable SecurityType.CONVENTIONAL r.coupon r.dirty r.days).2 tax / r.dirty + 1 : ℚ) : ℝ)
        = 1 + ((total_net_return ((100 - r.dirty) + r.coupon * ((r.days : ℚ) / 365))
            (r.coupon * ((r.days : ℚ) / 365)) tax : ℚ) : ℝ) / (r.dirty : ℝ) := by
      simp only [total_gross_taxable]
      push_cast
      ring
    rw [hbase]
  · rw [annual_equiv]
    have hexp : ((365 : ℝ) / ((365 : Int) : ℝ)) = 1 := by norm_num
    rw [hexp, Real.rpow_one]
    push_cast
    ring

/-- Witness for C3 at the spec's concrete Conventional (coupon 4, dirty
102, 365 days, tax 20). -/
theorem conventional_return_formula_witness :
    (total_gross_taxable wConvRec.type wConvRec.coupon wConvRec.dirty wConvRec.days).2
      = wConvRec.coupon * ((wConvRec.days : ℚ) / 365) ∧
    (total_gross_taxable wConvRec.type wConvRec.coupon wConvRec.dirty wConvRec.days).1
      = (100 - wConvRec.dirty) + wConvRec.coupon * ((wConvRec.days : ℚ) / 365) ∧
    (mkSecurity 20 wConvRec).GrossAER =
      (1 + ((total_net_return ((100 - wConvRec.dirty) + wConvRec.coupon * ((wConvRec.days : ℚ) / 365))
          (wConvRec.coupon * ((wConvRec.days : ℚ) / 365)) 20 : ℚ) : ℝ) / (wConvRec.dirty : ℝ))
        ^ ((365 : ℝ) / (wConvRec.days : ℝ)) - 1 ∧
    total_gross_taxable SecurityType.CONVENTIONAL 4 102 365 = (2, 4) ∧
    total_net_return 2 4 20 = 6 / 5 ∧
    annual_equiv (6 / 5) 102 365 = ((6 / 5 : ℚ) : ℝ) / 102 :=
  conventional_return_formula wConvRec 20 rfl (by decide) (by norm_num) (by norm_num)

/-! ### C4 -/

/-- Row whose export date equals its maturity date (both 20/1/2030). -/
def cexRow : RawRow :=
  ⟨"UK TEST BILL", ⟨20, 1, 2030⟩, "GB00X", "Bills", none, ⟨20, 1, 2030⟩, none, some 98⟩

/-- A current date before the export date of `cexRow`. -/
def cexToday : SDate := ⟨2026, 10, 12⟩

/-- Counterexample to C4 as stated: `cexRow` normalizes successfully,
passes the eligibility filter for the current date `cexToday` (its
maturity 2030-01-20 is after today), yet its `daysToMaturity` is 0, so
the filter alone does not guarantee a positive divisor for every input
row and every current date. -/
theorem eligibility_days_cex :
    (normalizeRow Fmt.dayFirst cexRow).toOption.map (fun r => (keep cexToday r, r.days))
      = some (true, 0) := by decide

/-- C4 (amended): for records that pass the eligibility filter,
`daysToMaturity > 0` holds provided the export date is on or before the
current date; the filter compares the maturity only against today, so
this extra hypothesis (true for any genuine export read in the past) is
what the counterexample shows is needed. -/
theorem eligibility_days_pos (fmt : Fmt) (row : RawRow) (today : SDate) (r : NormRec)
    (hnorm : normalizeRow fmt row = Except.ok r)
    (hkeep : keep today r = true)
    (hexport : toDays r.exportDate ≤ toDays today) :
    0 < r.days := by
  have hmat : toDays today < toDays r.maturity := by
    simp only [keep, Bool.and_eq_true, decide_eq_true_eq] at hkeep
    exact hkeep.1.1.1
  cases h1 : parseDate fmt row.exportDate with
  | none => simp [normalizeRow, h1] at hnorm
  | some ed =>
    cases h2 : SecurityToType row.category with
    | none => simp [normalizeRow, h1, h2] at hnorm
    | some ty =>
      cases h3 : parseDate fmt row.maturityDate with
      | none => simp [normalizeRow, h1, h2, h3] at hnorm
      | some md =>
        simp only [normalizeRow, h1, h2, h3, Except.ok.injEq] at hnorm
        subst hnorm
        dsimp only at hmat hexport ⊢
        omega

/-- Concrete raw row for the witnesses: a Bill exported 15/1/2030,
maturing 16/4/2030 (91 days), dirty price 98. -/
def wBillRow : RawRow :=
  ⟨"UK TREASURY BILL", ⟨15, 1, 2030⟩, "GB00A", "Bills", none, ⟨16, 4, 2030⟩, none, some 98⟩

/-- Witness for the amended C4: `wBillRow` normalizes to `wBillRec`,
passes the filter on 2030-02-01 (which is after its export date), and
indeed has 91 > 0 days to maturity. -/
theorem eligibility_days_pos_witness : 0 < wBillRec.days :=
  eligibility_days_pos Fmt.dayFirst wBillRow ⟨2030, 2, 1⟩ wBillRec rfl
    (by decide) (by decide)

/-! ### C7 -/

theorem processRows_error_of_mem (fmt : Fmt) (tax : ℚ) (today : SDate)
    {rows : List RawRow} {row : RawRow} {e : Err}
    (hmem : row ∈ rows) (hbad : normalizeRow fmt row = Except.error e) :
    ∀ out, processRows fmt tax today rows ≠ Except.ok out := by
  induction rows with
  | nil => cases hmem
  | cons x rest ih =>
    intro out
    rcases List.mem_cons.mp hmem with rfl | hmem'
    · simp [processRows, hbad]
    · cases h1 : normalizeRow fmt x with
      | error e' => simp [processRows, h1]
      | ok r =>
        cases h2 : processRows fmt tax today rest with
        | error e' => simp [processRows, h1, h2]
        | ok out' => exact absurd h2 (ih hmem' out')

theorem normalizeRow_cat_error (fmt' : Fmt) (row : RawRow)
    (hcat : SecurityToType row.category = none) :
    ∃ e, normalizeRow fmt' row = Except.error e := by
  cases h1 : parseDate fmt' row.exportDate with
  | none => exact ⟨.valueError, by simp [normalizeRow, h1]⟩
  | some ed => exact ⟨.keyError row.category, by simp [normalizeRow, h1, hcat]⟩

/-- C7: a row whose category label is outside the fixed lookup makes
normalization fail with the `KeyError` (when its export date parses, so
the lookup is actually reached), and the presence of such a row anywhere
in the input prevents the batch from producing any output — both at the
processing stage under any format and for the whole run — regardless of
whether the row would have been filtered out later. -/
theorem unknown_category_aborts (fmt : Fmt) (tax : ℚ) (today : SDate)
    (rows : List RawRow) (row : RawRow)
    (hmem : row ∈ rows)
    (hcat : SecurityToType row.category = none)
    (hexp : (parseDate fmt row.exportDate).isSome) :
    normalizeRow fmt row = Except.error (Err.keyError row.category) ∧
    (∀ out, processRows fmt tax today rows ≠ Except.ok out) ∧
    (∀ out, run tax today rows ≠ Except.ok out) := by
  have hkey : normalizeRow fmt row = Except.error (Err.keyError row.category) := by
    rw [Option.isSome_iff_exists] at hexp
    obtain ⟨ed, hed⟩ := hexp
    simp [normalizeRow, hed, hcat]
  refine ⟨hkey, processRows_error_of_mem fmt tax today hmem hkey, ?_⟩
  intro out
  rw [run]
  cases hdf : date_format (rows.map RawRow.maturityDate) with
  | none => simp
  | some fmt' =>
    obtain ⟨e', he'⟩ := normalizeRow_cat_error fmt' row hcat
    cases hpr : processRows fmt' tax today rows with
    | error e2 => simp [hpr]
    | ok out' => exact absurd hpr (processRows_error_of_mem fmt' tax today hmem he' out')

/-- Row with the unrecognized category label "Tbill". -/
def wBadCatRow : RawRow :=
  ⟨"UK TREASURY BILL", ⟨15, 1, 2030⟩, "GB00E", "Tbill", none, ⟨16, 4, 2030⟩, none, some 98⟩

/-- Witness for C7: with the bad-category row present (even though its
maturity is in the past relative to the chosen current date, so it would
have been filtered out), normalization yields the `KeyError` and neither
the processing stage nor the whole run produces the empty output. -/
theorem unknown_category_aborts_witness :
    normalizeRow Fmt.dayFirst wBadCatRow = Except.error (Err.keyError "Tbill") ∧
    processRows Fmt.dayFirst 20 ⟨2031, 1, 1⟩ [wBadCatRow] ≠ Except.ok [] ∧
    run 20 ⟨2031, 1, 1⟩ [wBadCatRow] ≠ Except.ok [] := by
  have h := unknown_category_aborts Fmt.dayFirst 20 ⟨2031, 1, 1⟩ [wBadCatRow] wBadCatRow
    (List.mem_singleton.mpr rfl) (by decide) (by decide)
  exact ⟨h.1, h.2.1 [], h.2.2 []⟩

/-! ### C5 -/

theorem keep_iff {today : SDate} {r : NormRec} :
    keep today r = true ↔
      toDays today < toDays r.maturity ∧ nameIsUk r.name = true ∧
      r.type ≠ SecurityType.STRIP ∧ r.type ≠ SecurityType.INDEXLINKED := by
  simp [keep, Bool.and_eq_true, decide_eq_true_eq, and_assoc]

theorem processRows_ok_iff (fmt : Fmt) (tax : ℚ) (today : SDate) :
    ∀ rows : List RawRow,
    (∀ row ∈ rows, ∃ r, normalizeRow fmt row = Except.ok r) →
    ∃ assets, processRows fmt tax today rows = Except.ok assets ∧
      (∀ s ∈ assets, ∃ row ∈ rows, ∃ r, normalizeRow fmt row = Except.ok r ∧
        keep today r = true ∧ s = mkSecurity tax r) ∧
      (∀ row ∈ rows, ∀ r, normalizeRow fmt row = Except.ok r →
        keep today r = true → mkSecurity tax r ∈ assets)
  | [], _ => ⟨[], rfl, by simp, by simp⟩
  | x :: rest, h => by
    obtain ⟨rx, hx⟩ := h x (List.mem_cons_self x rest)
    obtain ⟨as', hps, hsound, hcomp⟩ :=
      processRows_ok_iff fmt tax today rest (fun z hz => h z (List.mem_cons_of_mem x hz))
    refine ⟨if keep today rx then mkSecurity tax rx :: as' else as', ?_, ?_, ?_⟩
    · simp [processRows, hx, hps]
    · intro s hs
      by_cases hk : keep today rx = true
      · rw [if_pos hk] at hs
        rcases List.mem_cons.mp hs with rfl | hs'
        · exact ⟨x, List.mem_cons_self x rest, rx, hx, hk, rfl⟩
        · obtain ⟨row, hrow, r, hr, hkr, hsr⟩ := hsound s hs'
          exact ⟨row, List.mem_cons_of_mem x hrow, r, hr, hkr, hsr⟩
      · rw [if_neg hk] at hs
        obtain ⟨row, hrow, r, hr, hkr, hsr⟩ := hsound s hs
        exact ⟨row, List.mem_cons_of_mem x hrow, r, hr, hkr, hsr⟩
    · intro row hrow r hr hkr
      rcases List.mem_cons.mp hrow with rfl | hrow'
      · have : rx = r := by rw [hx] at hr; exact Except.ok.inj hr
        subst this
        rw [if_pos hkr]
        exact List.mem_cons_self _ _
      · have hmem := hcomp row hrow' r hr hkr
        by_cases hk : keep today rx = true
        · rw [if_pos hk]; exact List.mem_cons_of_mem _ hmem
        · rw [if_neg hk]; exact hmem

/-- C5: when the date format resolves and every row normalizes, the run
succeeds (rows the filter rejects are silently skipped, never an error),
every output record comes from a row whose normalized form has maturity
strictly after today, a domestic ("uk"-prefixed) name, and a type that
is neither STRIP nor INDEXLINKED, and conversely every normalized row
satisfying those three conditions contributes its record to the output. -/
theorem eligible_records_output (fmt : Fmt) (tax : ℚ) (today : SDate) (rows : List RawRow)
    (hfmt : date_format (rows.map RawRow.maturityDate) = some fmt)
    (hnorm : ∀ row ∈ rows, ∃ r, normalizeRow fmt row = Except.ok r) :
    ∃ out, run tax today rows = Except.ok out ∧
      (∀ s ∈ out, ∃ row ∈ rows, ∃ r, normalizeRow fmt row = Except.ok r ∧
        toDays today < toDays r.maturity ∧ nameIsUk r.name = true ∧
        r.type ≠ SecurityType.STRIP ∧ r.type ≠ SecurityType.INDEXLINKED ∧
        s = mkSecurity tax r) ∧
      (∀ row ∈ rows, ∀ r, normalizeRow fmt row = Except.ok r →
        toDays today < toDays r.maturity → nameIsUk r.name = true →
        r.type ≠ SecurityType.STRIP → r.type ≠ SecurityType.INDEXLINKED →
        mkSecurity tax r ∈ out) := by
  obtain ⟨assets, hps, hsound, hcomp⟩ := processRows_ok_iff fmt tax today rows hnorm
  refine ⟨rankSort assets, ?_, ?_, ?_⟩
  · rw [run, hfmt]
    simp only [hps]
  · intro s hs
    rw [rankSort, List.mem_mergeSort] at hs
    obtain ⟨row, hrow, r, hr, hkr, hsr⟩ := hsound s hs
    obtain ⟨hk1, hk2, hk3, hk4⟩ := keep_iff.mp hkr
    exact ⟨row, hrow, r, hr, hk1, hk2, hk3, hk4, hsr⟩
  · intro row hrow r hr hk1 hk2 hk3 hk4
    rw [rankSort, List.mem_mergeSort]
    exact hcomp row hrow r hr (keep_iff.mpr ⟨hk1, hk2, hk3, hk4⟩)

/-- Witness for C5 on the one-row file containing `wBillRow` (an
eligible Bill) on 2030-02-01 with tax rate 20. -/
theorem eligible_records_output_witness :
    ∃ out, run 20 ⟨2030, 2, 1⟩ [wBillRow] = Except.ok out ∧
      (∀ s ∈ out, ∃ row ∈ [wBillRow], ∃ r, normalizeRow Fmt.dayFirst row = Except.ok r ∧
        toDays ⟨2030, 2, 1⟩ < toDays r.maturity ∧ nameIsUk r.name = true ∧
        r.type ≠ SecurityType.STRIP ∧ r.type ≠ SecurityType.INDEXLINKED ∧
        s = mkSecurity 20 r) ∧
      (∀ row ∈ [wBillRow], ∀ r, normalizeRow Fmt.dayFirst row = Except.ok r →
        toDays ⟨2030, 2, 1⟩ < toDays r.maturity → nameIsUk r.name = true →
        r.type ≠ SecurityType.STRIP → r.type ≠ SecurityType.INDEXLINKED →
        mkSecurity 20 r ∈ out) :=
  eligible_records_output Fmt.dayFirst 20 ⟨2030, 2, 1⟩ [wBillRow] (by decide)
    (by
      intro row hrow
      rw [List.mem_singleton] at hrow
      subst hrow
      exact ⟨wBillRec, rfl⟩)

/-! ### C8 -/

/-- C8: for a tax rate in [0,100), the derived grossed-up comparison
figure equals the stored AER divided by `1 - tax/100` when the AER is
non-negative, and equals the stored AER unchanged when it is negative.
(It is derived in the report line only; the `Security` structure carries
no such field, so it is presentation-only.) -/
theorem comparison_aer_formula (tax : ℚ) (aer : ℝ) (h0 : 0 ≤ tax) (h1 : tax < 100) :
    (0 ≤ aer → comparisonAER tax aer = aer / ((1 - tax / 100 : ℚ) : ℝ)) ∧
    (aer < 0 → comparisonAER tax aer = aer) := by
  constructor
  · intro ha
    rw [comparisonAER, if_pos ha, grossUpDivisor]
  · intro ha
    rw [comparisonAER, if_neg (not_le.mpr ha)]

/-- Witness for C8 at tax rate 20 and AER 1. -/
theorem comparison_aer_formula_witness :
    ((0 : ℝ) ≤ 1 → comparisonAER 20 1 = 1 / ((1 - 20 / 100 : ℚ) : ℝ)) ∧
    ((1 : ℝ) < 0 → comparisonAER 20 1 = 1) :=
  comparison_aer_formula 20 1 (by norm_num) (by norm_num)

/-! ### C9 -/

theorem giltLe_trans : ∀ a b c : Security, giltLe a b → giltLe b c → giltLe a c := by
  intro a b c hab hbc
  simp only [giltLe, decide_eq_true_eq] at *
  exact le_trans hbc hab

theorem giltLe_total : ∀ a b : Security, giltLe a b || giltLe b a := by
  intro a b
  simp only [giltLe, Bool.or_eq_true, decide_eq_true_eq]
  exact le_total _ _

/-- C9: the reported sequence is the stable descending-by-`GrossAER`
sort of the constructed records: it is pairwise non-increasing in
`GrossAER`, a permutation of the input collection, and any sublist of
the input that is already non-increasing — in particular any run of
tied records, in input order — survives as a sublist of the output
(stability). -/
theorem run_output_sorted (fmt : Fmt) (tax : ℚ) (today : SDate) (rows : List RawRow)
    (assets : List Security)
    (hfmt : date_format (rows.map RawRow.maturityDate) = some fmt)
    (hps : processRows fmt tax today rows = Except.ok assets) :
    run tax today rows = Except.ok (rankSort assets) ∧
    (rankSort assets).Pairwise (fun a b => b.GrossAER ≤ a.GrossAER) ∧
    (rankSort assets).Perm assets ∧
    (∀ c : List Security, c.Sublist assets →
      c.Pairwise (fun a b => b.GrossAER ≤ a.GrossAER) → c.Sublist (rankSort assets)) := by
  refine ⟨?_, ?_, ?_, ?_⟩
  · rw [run, hfmt]
    simp only [hps]
  · have h := List.sorted_mergeSort giltLe_trans giltLe_total assets
    rw [rankSort]
    exact h.imp (fun hab => by simpa [giltLe, decide_eq_true_eq] using hab)
  · exact List.mergeSort_perm assets giltLe
  · intro c hsub hpair
    rw [rankSort]
    exact List.sublist_mergeSort giltLe_trans giltLe_total
      (hpair.imp (fun hab => by simp [giltLe, decide_eq_true_eq, hab])) hsub

/-- Witness for C9 on the one-row file containing `wBillRow`, whose
processing stage produces the single record `mkSecurity 20 wBillRec`. -/
theorem run_output_sorted_witness :
    run 20 ⟨2030, 2, 1⟩ [wBillRow] = Except.ok (rankSort [mkSecurity 20 wBillRec]) ∧
    (rankSort [mkSecurity 20 wBillRec]).Pairwise (fun a b => b.GrossAER ≤ a.GrossAER) ∧
    (rankSort [mkSecurity 20 wBillRec]).Perm [mkSecurity 20 wBillRec] ∧
    (∀ c : List Security, c.Sublist [mkSecurity 20 wBillRec] →
      c.Pairwise (fun a b => b.GrossAER ≤ a.GrossAER) →
      c.Sublist (rankSort [mkSecurity 20 wBillRec])) :=
  run_output_sorted Fmt.dayFirst 20 ⟨2030, 2, 1⟩ [wBillRow] [mkSecurity 20 wBillRec]
    (by decide) rfl

/-! ### C10 -/

/-- C10: the tax-rate validation accepts exactly `t = 0` and
`1 < t ≤ 100`; in particular `t = 100` is accepted, where the
grossing-up divisor `1 - t/100` is exactly 0 and the comparison figure
for a non-negative AER is computed as a division by zero (which raises
`ZeroDivisionError` at the Python report line); the divisor is nonzero
exactly on the claimed safe range [0,100). -/
theorem tax_rate_validation :
    (∀ t : ℚ, tax_rate_ok t = true ↔ (t = 0 ∨ (1 < t ∧ t ≤ 100))) ∧
    tax_rate_ok 100 = true ∧
    grossUpDivisor 100 = 0 ∧
    (∀ aer : ℝ, 0 ≤ aer → comparisonAER 100 aer = aer / 0) ∧
    (∀ t : ℚ, 0 ≤ t → t < 100 → grossUpDivisor t ≠ 0) := by
  have h1 : ∀ t : ℚ, tax_rate_ok t = true ↔ (t = 0 ∨ (1 < t ∧ t ≤ 100)) := by
    intro t
    rw [tax_rate_ok]
    simp only [Bool.not_eq_true', Bool.or_eq_false_iff, Bool.and_eq_false_iff,
      decide_eq_false_iff_not, Bool.not_eq_false', decide_eq_true_eq, not_le, not_lt]
    constructor
    · rintro ⟨h2 | h2, h3⟩
      · exact Or.inr ⟨h2, h3⟩
      · exact Or.inl h2
    · rintro (rfl | ⟨h2, h3⟩)
      · exact ⟨Or.inr rfl, by norm_num⟩
      · exact ⟨Or.inl h2, h3⟩
  refine ⟨h1, (h1 100).mpr (Or.inr ⟨by norm_num, le_refl _⟩),
    by norm_num [grossUpDivisor], ?_, ?_⟩
  · intro aer ha
    rw [comparisonAER, if_pos ha]
    norm_num [grossUpDivisor]
  · intro t h0 h2
    rw [grossUpDivisor]
    intro hcon
    have ht : t = 100 := by linear_combination -100 * hcon
    rw [ht] at h2
    exact absurd h2 (lt_irrefl _)

/-- Witness for C10: the rate 40 is accepted, the comparison figure at
the accepted rate 100 divides AER 1 by zero, and the divisor at rate 20
is nonzero. -/
theorem tax_rate_validation_witness :
    tax_rate_ok 40 = true ∧ comparisonAER 100 1 = 1 / 0 ∧ grossUpDivisor 20 ≠ 0 :=
  ⟨(tax_rate_validation.1 40).mpr (Or.inr (by norm_num)),
   tax_rate_validation.2.2.2.1 1 (by norm_num),
   tax_rate_validation.2.2.2.2 20 (by norm_num) (by norm_num)⟩
